import Mathlib

/-!
Verification of the LBO deal-model engine.

The engine consists of:
* an IRR solver (`calculate_irr`): fixed-count Newton-Raphson on the NPV
  function of a cash-flow list;
* a year-by-year cash-flow projector (`run_lbo`) with straight-line debt
  amortization, interest, tax and free-cash-flow accounting, terminal
  exit proceeds merged into the final cash flow, and IRR/MOIC summary;
* a simplified sensitivity grid (`irr_grid`) sweeping holding period and
  exit multiple over an EBITDA-as-cash-flow reduced model.

Machine reals are modelled as `ℚ` (exact arithmetic); every operation the
host language aborts on (division by zero) is modelled with `Option`,
`none` standing for the raised error.
-/

/-- Checked division: `none` models the host language raising a
division-by-zero error when the divisor is zero. -/
def qdiv? (a b : ℚ) : Option ℚ :=
  if b = 0 then none else some (a / b)

/-- The NPV summation of the solver, one checked division per summand:
`valueAux r i [c0, c1, ...] = some (c0/(1+r)^i + c1/(1+r)^(i+1) + ...)`,
or `none` if any divisor is zero.  Index `i` is the position of the head
summand; the solver starts at `i = 0`. -/
def valueAux (r : ℚ) : ℕ → List ℚ → Option ℚ
  | _, [] => some 0
  | i, c :: rest =>
    match qdiv? c ((1 + r) ^ i), valueAux r (i + 1) rest with
    | some t, some s => some (t + s)
    | _, _ => none

/-- The NPV-derivative summation of the solver, one checked division per
summand: term `i` is `-i * c_i / (1+r)^(i+1)`. -/
def derivAux (r : ℚ) : ℕ → List ℚ → Option ℚ
  | _, [] => some 0
  | i, c :: rest =>
    match qdiv? (-(i : ℚ) * c) ((1 + r) ^ (i + 1)), derivAux r (i + 1) rest with
    | some t, some s => some (t + s)
    | _, _ => none

/-- `value = sum([cf / d for cf, d in zip(cash_flows, denominator)])` with
`denominator = [(1 + rate) ** i for i in range(len(cash_flows))]`. -/
def calcValue (cash_flows : List ℚ) (rate : ℚ) : Option ℚ :=
  valueAux rate 0 cash_flows

/-- `derivative = sum([-i * cf / ((1 + rate) ** (i + 1)) for i, cf in enumerate(cash_flows)])`. -/
def calcDerivative (cash_flows : List ℚ) (rate : ℚ) : Option ℚ :=
  derivAux rate 0 cash_flows

/-- One Newton iteration of the solver: `rate -= value / derivative`,
failing if either summation or the final division fails. -/
def newtonStep (cash_flows : List ℚ) (rate : ℚ) : Option ℚ :=
  match calcValue cash_flows rate, calcDerivative cash_flows rate with
  | some v, some d => (qdiv? v d).map (fun q => rate - q)
  | _, _ => none

/-- The solver's `for _ in range(iterations)` loop: iterate `newtonStep`,
propagating the first error. -/
def irrIter (cash_flows : List ℚ) : ℕ → ℚ → Option ℚ
  | 0, r => some r
  | n + 1, r =>
    match newtonStep cash_flows r with
    | none => none
    | some r2 => irrIter cash_flows n r2

/-- `calculate_irr(cash_flows, iterations=100)`: Newton-Raphson from the
starting guess `rate = 0.1`, returning the rate after the fixed number of
iterations (a ratio; callers multiply by 100). -/
def calculate_irr (cash_flows : List ℚ) (iterations : ℕ := 100) : Option ℚ :=
  irrIter cash_flows iterations (1 / 10)

/-- Spec-side NPV: `NPV(r) = Σ cashFlows[i] / (1+r)^i`, written as a total
sum over the index range. -/
def npvSpec (cash_flows : List ℚ) (r : ℚ) : ℚ :=
  ((List.range cash_flows.length).map (fun (i : ℕ) => cash_flows.getD i 0 / (1 + r) ^ i)).sum

/-- Spec-side NPV derivative: `Σ -i * cashFlows[i] / (1+r)^(i+1)`. -/
def npvDerivSpec (cash_flows : List ℚ) (r : ℚ) : ℚ :=
  ((List.range cash_flows.length).map
    (fun (i : ℕ) => -(i : ℚ) * cash_flows.getD i 0 / (1 + r) ^ (i + 1))).sum

/-- Spec-side Newton step `r ← r − NPV(r)/NPV'(r)`, with the two failure
conditions stated up front: a vanishing power base on a nonempty list, or
a vanishing derivative. -/
def newtonStepSpec (cash_flows : List ℚ) (r : ℚ) : Option ℚ :=
  if 1 + r = 0 ∧ cash_flows ≠ [] then none
  else if npvDerivSpec cash_flows r = 0 then none
  else some (r - npvSpec cash_flows r / npvDerivSpec cash_flows r)

/-- Iterated spec-side Newton step. -/
def irrSpecIter (cash_flows : List ℚ) : ℕ → ℚ → Option ℚ
  | 0, r => some r
  | n + 1, r =>
    match newtonStepSpec cash_flows r with
    | none => none
    | some r2 => irrSpecIter cash_flows n r2

theorem valueAux_eq (r : ℚ) (hr : 1 + r ≠ 0) :
    ∀ (cf : List ℚ) (i : ℕ),
      valueAux r i cf =
        some (((List.range cf.length).map (fun k => cf.getD k 0 / (1 + r) ^ (i + k))).sum) := by
  intro cf
  induction cf with
  | nil => intro i; simp [valueAux]
  | cons c rest ih =>
    intro i
    have hpow : (1 + r) ^ i ≠ 0 := pow_ne_zero _ hr
    have hshift : ∀ k : ℕ, i + (k + 1) = (i + 1) + k := by omega
    rw [valueAux, ih (i + 1)]
    simp only [qdiv?, if_neg hpow]
    rw [List.length_cons, List.range_succ_eq_map, List.map_cons, List.map_map, List.sum_cons]
    congr 2
    congr 1
    refine List.map_congr_left ?_
    intro k _
    simp [Function.comp, Nat.succ_eq_add_one, hshift k]

theorem derivAux_eq (r : ℚ) (hr : 1 + r ≠ 0) :
    ∀ (cf : List ℚ) (i : ℕ),
      derivAux r i cf =
        some (((List.range cf.length).map
          (fun k => -((i + k : ℕ) : ℚ) * cf.getD k 0 / (1 + r) ^ (i + k + 1))).sum) := by
  intro cf
  induction cf with
  | nil => intro i; simp [derivAux]
  | cons c rest ih =>
    intro i
    have hpow : (1 + r) ^ (i + 1) ≠ 0 := pow_ne_zero _ hr
    have hshift : ∀ k : ℕ, i + (k + 1) = (i + 1) + k := by omega
    rw [derivAux, ih (i + 1)]
    simp only [qdiv?, if_neg hpow]
    rw [List.length_cons, List.range_succ_eq_map, List.map_cons, List.map_map, List.sum_cons]
    congr 2
    congr 1
    refine List.map_congr_left ?_
    intro k _
    simp [Function.comp, Nat.succ_eq_add_one, hshift k]

theorem calcValue_eq (cf : List ℚ) (r : ℚ) (hr : 1 + r ≠ 0) :
    calcValue cf r = some (npvSpec cf r) := by
  have := valueAux_eq r hr cf 0
  simpa [calcValue, npvSpec] using this

theorem calcDerivative_eq (cf : List ℚ) (r : ℚ) (hr : 1 + r ≠ 0) :
    calcDerivative cf r = some (npvDerivSpec cf r) := by
  have := derivAux_eq r hr cf 0
  simpa [calcDerivative, npvDerivSpec] using this

theorem derivAux_none (r : ℚ) (hr : 1 + r = 0) (c : ℚ) (rest : List ℚ) (i : ℕ) :
    derivAux r i (c :: rest) = none := by
  have hpow : (1 + r) ^ (i + 1) = 0 := by
    rw [hr]; exact zero_pow (by omega)
  simp only [derivAux, qdiv?, if_pos hpow]

theorem newtonStep_eq_spec (cf : List ℚ) (r : ℚ) :
    newtonStep cf r = newtonStepSpec cf r := by
  by_cases hr : 1 + r = 0
  · cases cf with
    | nil =>
      simp [newtonStep, newtonStepSpec, calcValue, calcDerivative, valueAux, derivAux,
        npvDerivSpec, qdiv?]
    | cons c rest =>
      have hd : calcDerivative (c :: rest) r = none := derivAux_none r hr c rest 0
      simp only [newtonStep, hd]
      have : newtonStepSpec (c :: rest) r = none := by
        simp [newtonStepSpec, hr]
      rw [this]
      cases calcValue (c :: rest) r <;> rfl
  · rw [newtonStep, calcValue_eq cf r hr, calcDerivative_eq cf r hr]
    by_cases hder : npvDerivSpec cf r = 0
    · simp [newtonStepSpec, qdiv?, hder, hr]
    · simp [newtonStepSpec, qdiv?, hder, hr, div_eq_mul_inv]

theorem irrIter_eq_spec (cf : List ℚ) : ∀ (n : ℕ) (r : ℚ),
    irrIter cf n r = irrSpecIter cf n r := by
  intro n
  induction n with
  | zero => intro r; rfl
  | succ n ih =>
    intro r
    rw [irrIter, irrSpecIter, newtonStep_eq_spec]
    cases newtonStepSpec cf r with
    | none => rfl
    | some r2 => exact ih r2

/-- C2: the IRR solver starts at rate 0.10 and performs exactly 100
unconditional Newton-Raphson iterations `r ← r − NPV(r)/NPV'(r)` with
`NPV(r) = Σ cashFlows[i]/(1+r)^i` and `NPV'(r) = Σ −i·cashFlows[i]/(1+r)^(i+1)`;
there is no convergence-tolerance check, early exit or bounds clamp, and
the final rate is returned as a ratio. -/
theorem calculate_irr_is_newton_100 (cf : List ℚ) :
    calculate_irr cf = irrSpecIter cf 100 (1 / 10) := by
  rw [calculate_irr, irrIter_eq_spec]

theorem irrIter_none_of_step (cf : List ℚ) (n : ℕ) (r : ℚ) (h : newtonStep cf r = none) :
    irrIter cf (n + 1) r = none := by
  rw [irrIter, h]

/-- C10: on a cash-flow sequence of length 0 or 1 the computed NPV
derivative is exactly 0 on the first Newton iteration (the only summand
carries factor `-i = 0`, or there are no summands), so the solver fails
with a division-by-zero error instead of returning a rate. -/
theorem calculate_irr_short_fails (cf : List ℚ) (h : cf.length ≤ 1) :
    calcDerivative cf (1 / 10) = some 0 ∧ calculate_irr cf = none := by
  have hd : calcDerivative cf (1 / 10) = some 0 := by
    match cf, h with
    | [], _ => rfl
    | [a], _ => norm_num [calcDerivative, derivAux, qdiv?]
  have hstep : newtonStep cf (1 / 10) = none := by
    rw [newtonStep, hd]
    match cf, h with
    | [], _ => rfl
    | [a], _ =>
      norm_num [calcValue, valueAux, qdiv?]
  refine ⟨hd, ?_⟩
  show irrIter cf (99 + 1) (1 / 10) = none
  exact irrIter_none_of_step cf 99 (1 / 10) hstep

/-- Concrete instantiation of `calculate_irr_short_fails` at the
single-entry cash-flow sequence `[5]`. -/
theorem calculate_irr_short_fails_witness :
    [(5 : ℚ)].length ≤ 1 ∧ calcDerivative [(5 : ℚ)] (1 / 10) = some 0 ∧
      calculate_irr [(5 : ℚ)] = none :=
  ⟨by norm_num,
   (calculate_irr_short_fails [(5 : ℚ)] (by norm_num)).1,
   (calculate_irr_short_fails [(5 : ℚ)] (by norm_num)).2⟩

/-- The engine's sidebar inputs, after the percentage fields have been
divided by 100 exactly where the source does it (`transaction_fee_pct`,
`interest_rate`, `tax_rate`, `ebitda_margin`, `capex_pct`,
`depreciation_pct`, `wc_pct` are stored as ratios; `debt_ratio_pct` is
kept as a 0..100 percentage because the source divides it by 100 at each
use site). `holding_period` and `amort_years` are the integer year
counts. -/
structure Inputs where
  purchase_price : ℚ
  transaction_fee_pct : ℚ
  entry_ebitda : ℚ
  holding_period : ℕ
  debt_ratio_pct : ℚ
  interest_rate : ℚ
  amort_years : ℕ
  tax_rate : ℚ
  ebitda_margin : ℚ
  capex_pct : ℚ
  depreciation_pct : ℚ
  wc_pct : ℚ
  deriving DecidableEq

/-- One row of the projection table appended per year. -/
structure YearRecord where
  year : ℕ
  ebitda : ℚ
  revenue : ℚ
  capex : ℚ
  depreciation : ℚ
  interest : ℚ
  tax : ℚ
  fcf : ℚ
  debt_remaining : ℚ
  deriving DecidableEq

instance : Inhabited YearRecord :=
  ⟨⟨0, 0, 0, 0, 0, 0, 0, 0, 0⟩⟩

/-- The summary a scenario run returns: IRR in percent, MOIC, and the
year-by-year table. -/
structure LBOResult where
  irr : ℚ
  moic : ℚ
  table : List YearRecord
  deriving DecidableEq

/-- `debt = total_price * (debt_ratio / 100)` with
`total_price = purchase_price + purchase_price * transaction_fee_pct`. -/
def lboDebt (inp : Inputs) : ℚ :=
  (inp.purchase_price + inp.purchase_price * inp.transaction_fee_pct) *
    (inp.debt_ratio_pct / 100)

/-- `equity = total_price - debt`. -/
def lboEquity (inp : Inputs) : ℚ :=
  (inp.purchase_price + inp.purchase_price * inp.transaction_fee_pct) - lboDebt inp

/-- One pass of the projection loop body at a given year with the debt
remaining before that year.  The only fallible operation is
`revenue = ebitda / ebitda_margin`, which raises when the margin is zero;
`amort = debt / amort_years if year <= amort_years else 0` is evaluated
lazily by the host language, so a zero `amort_years` never divides. -/
def lboYearStep (inp : Inputs) (growth_rate debt : ℚ) (year : ℕ) (dr : ℚ) :
    Option (YearRecord × ℚ) :=
  if inp.ebitda_margin = 0 then none
  else
    let ebitda := inp.entry_ebitda * (1 + growth_rate) ^ (year - 1)
    let revenue := ebitda / inp.ebitda_margin
    let capex := revenue * inp.capex_pct
    let depreciation := capex * inp.depreciation_pct
    let wc_change := revenue * inp.wc_pct
    let interest := dr * inp.interest_rate
    let taxable_income := ebitda - interest - depreciation
    let tax := max taxable_income 0 * inp.tax_rate
    let net_income := taxable_income - tax
    let fcf := net_income + depreciation - capex - wc_change
    let amort := if year ≤ inp.amort_years then debt / (inp.amort_years : ℚ) else 0
    let dr2 := max (dr - amort) 0
    some (⟨year, ebitda, revenue, capex, depreciation, interest, tax, fcf, dr2⟩, dr2)

/-- The `for year in range(1, holding_period + 1)` loop: run `n` more
years starting at `year`, threading `debt_remaining`, collecting the
appended rows in order and returning the final debt remaining. -/
def lboLoop (inp : Inputs) (growth_rate debt : ℚ) :
    ℕ → ℕ → ℚ → Option (List YearRecord × ℚ)
  | 0, _, dr => some ([], dr)
  | n + 1, year, dr =>
    match lboYearStep inp growth_rate debt year dr with
    | none => none
    | some p =>
      match lboLoop inp growth_rate debt n (year + 1) p.2 with
      | none => none
      | some q => some (p.1 :: q.1, q.2)

/-- The projection table part of `run_lbo`: the loop over years
`1..holding_period` started on the freshly derived debt. -/
def lboTable (inp : Inputs) (growth_rate : ℚ) : Option (List YearRecord × ℚ) :=
  lboLoop inp growth_rate (lboDebt inp) inp.holding_period 1 (lboDebt inp)

/-- `cash_flows[-1] += p`: add `p` to the last element, leaving an empty
list unchanged (the source's list is never empty, it starts at
`[-equity]`). -/
def addToLast (p : ℚ) : List ℚ → List ℚ
  | [] => []
  | [a] => [a + p]
  | a :: b :: rest => a :: addToLast p (b :: rest)

/-- `run_lbo(growth_rate, exit_multiple)`: derive fee/debt/equity from the
capital inputs, run the yearly loop building the table and the cash-flow
list `[-equity, fcf_1, ..., fcf_h]`, add the exit proceeds into the last
cash flow, and return IRR (in percent), MOIC and the table.  `none`
models the run raising: zero EBITDA margin (year loop), a failed Newton
step, or zero equity in `moic = proceeds / equity`. -/
def run_lbo (inp : Inputs) (growth_rate exit_multiple : ℚ) : Option LBOResult :=
  match lboTable inp growth_rate with
  | none => none
  | some q =>
    let equity := lboEquity inp
    let exit_ebitda := inp.entry_ebitda * (1 + growth_rate) ^ inp.holding_period
    let exit_value := exit_ebitda * exit_multiple
    let proceeds := exit_value - q.2
    let cash_flows := addToLast proceeds (-equity :: q.1.map (fun r => r.fcf))
    match calculate_irr cash_flows with
    | none => none
    | some r =>
      if equity = 0 then none
      else some ⟨r * 100, proceeds / equity, q.1⟩

/-- Debt remaining after `y` years of the straight-line schedule
`debt_remaining = max(debt_remaining - amort, 0)` with
`amort = debt / amort_years` for the first `amort_years` years and 0
afterwards. -/
def debtRemaining (debt : ℚ) (amort_years : ℕ) : ℕ → ℚ
  | 0 => debt
  | y + 1 =>
    max (debtRemaining debt amort_years y
      - (if y + 1 ≤ amort_years then debt / (amort_years : ℚ) else 0)) 0

/-- Closed form of the row the loop appends for a given year: every field
is a function of the year alone, the debt schedule being `debtRemaining`. -/
def specRecord (inp : Inputs) (growth_rate debt : ℚ) (year : ℕ) : YearRecord :=
  let ebitda := inp.entry_ebitda * (1 + growth_rate) ^ (year - 1)
  let revenue := ebitda / inp.ebitda_margin
  let capex := revenue * inp.capex_pct
  let depreciation := capex * inp.depreciation_pct
  let wc_change := revenue * inp.wc_pct
  let interest := debtRemaining debt inp.amort_years (year - 1) * inp.interest_rate
  let taxable_income := ebitda - interest - depreciation
  let tax := max taxable_income 0 * inp.tax_rate
  let net_income := taxable_income - tax
  let fcf := net_income + depreciation - capex - wc_change
  ⟨year, ebitda, revenue, capex, depreciation, interest, tax, fcf,
    debtRemaining debt inp.amort_years year⟩

theorem lboYearStep_closed (inp : Inputs) (g debt : ℚ) (hm : inp.ebitda_margin ≠ 0)
    (y : ℕ) :
    lboYearStep inp g debt (y + 1) (debtRemaining debt inp.amort_years y) =
      some (specRecord inp g debt (y + 1), debtRemaining debt inp.amort_years (y + 1)) := by
  rw [lboYearStep, if_neg hm]
  rfl

theorem lboLoop_closed (inp : Inputs) (g debt : ℚ) (hm : inp.ebitda_margin ≠ 0) :
    ∀ (n y0 : ℕ),
      lboLoop inp g debt n (y0 + 1) (debtRemaining debt inp.amort_years y0) =
        some ((List.range n).map (fun k => specRecord inp g debt (y0 + k + 1)),
          debtRemaining debt inp.amort_years (y0 + n)) := by
  intro n
  induction n with
  | zero => intro y0; simp [lboLoop]
  | succ n ih =>
    intro y0
    simp only [lboLoop, lboYearStep_closed inp g debt hm y0, ih (y0 + 1)]
    have e1 : y0 + (n + 1) = (y0 + 1) + n := by omega
    have e3 : ∀ k : ℕ, y0 + (k + 1) + 1 = (y0 + 1) + k + 1 := by omega
    rw [e1, List.range_succ_eq_map, List.map_cons, List.map_map]
    congr 2
    congr 1
    refine List.map_congr_left ?_
    intro k _
    simp only [Function.comp_apply, Nat.succ_eq_add_one]
    congr 1
    omega

/-- Entry point of the closed form: the loop as `run_lbo` starts it. -/
theorem lboTable_closed (inp : Inputs) (g : ℚ) (hm : inp.ebitda_margin ≠ 0) :
    lboTable inp g =
      some ((List.range inp.holding_period).map
        (fun k => specRecord inp g (lboDebt inp) (k + 1)),
        debtRemaining (lboDebt inp) inp.amort_years inp.holding_period) := by
  have := lboLoop_closed inp g (lboDebt inp) hm inp.holding_period 0
  simpa [lboTable, debtRemaining] using this

theorem debtRemaining_nonneg (debt : ℚ) (A : ℕ) (hd : 0 ≤ debt) :
    ∀ y : ℕ, 0 ≤ debtRemaining debt A y := by
  intro y
  cases y with
  | zero => exact hd
  | succ y => exact le_max_right _ _

theorem debtRemaining_step_le (debt : ℚ) (A : ℕ) (hd : 0 ≤ debt) (y : ℕ) :
    debtRemaining debt A (y + 1) ≤ debtRemaining debt A y := by
  have h0 : 0 ≤ debtRemaining debt A y := debtRemaining_nonneg debt A hd y
  have ha : 0 ≤ (if y + 1 ≤ A then debt / (A : ℚ) else 0) := by
    split
    · exact div_nonneg hd (Nat.cast_nonneg A)
    · exact le_refl 0
  rw [debtRemaining]
  exact max_le (by linarith) h0

theorem debtRemaining_closed (debt : ℚ) (A : ℕ) (hd : 0 ≤ debt) (hA : 1 ≤ A) :
    ∀ y : ℕ, y ≤ A → debtRemaining debt A y = debt * (((A : ℚ) - (y : ℚ)) / (A : ℚ)) := by
  have hAq : (A : ℚ) ≠ 0 := Nat.cast_ne_zero.mpr (by omega)
  intro y
  induction y with
  | zero =>
    intro _
    rw [debtRemaining]
    field_simp
  | succ y ih =>
    intro hy
    have hy' : y ≤ A := by omega
    rw [debtRemaining, ih hy', if_pos hy]
    have hstep : debt * (((A : ℚ) - (y : ℚ)) / (A : ℚ)) - debt / (A : ℚ)
        = debt * (((A : ℚ) - ((y : ℚ) + 1)) / (A : ℚ)) := by
      field_simp
      ring
    rw [hstep]
    have hcast : (y : ℚ) + 1 ≤ (A : ℚ) := by exact_mod_cast hy
    have hnn : 0 ≤ debt * (((A : ℚ) - ((y : ℚ) + 1)) / (A : ℚ)) := by
      apply mul_nonneg hd
      apply div_nonneg (by linarith)
      exact Nat.cast_nonneg A
    rw [max_eq_left hnn]
    congr 1
    push_cast
    ring

theorem debtRemaining_at_amort_end (debt : ℚ) (A : ℕ) (hd : 0 ≤ debt) (hA : 1 ≤ A) :
    debtRemaining debt A A = 0 := by
  rw [debtRemaining_closed debt A hd hA A (le_refl A)]
  simp

theorem lboTable_zero_margin (inp : Inputs) (g : ℚ) (hm : inp.ebitda_margin = 0)
    (hh : 1 ≤ inp.holding_period) : lboTable inp g = none := by
  obtain ⟨m, hmm⟩ : ∃ m, inp.holding_period = m + 1 := ⟨inp.holding_period - 1, by omega⟩
  rw [lboTable, hmm]
  simp [lboLoop, lboYearStep, hm]

theorem lboTable_margin_ne_zero (inp : Inputs) (g : ℚ) (tbl : List YearRecord) (drF : ℚ)
    (ht : lboTable inp g = some (tbl, drF)) (hh : 1 ≤ inp.holding_period) :
    inp.ebitda_margin ≠ 0 := by
  intro h0
  rw [lboTable_zero_margin inp g h0 hh] at ht
  exact Option.noConfusion ht

/-- A small concrete deal used to instantiate theorems on explicit
inputs: price 1000, no fee, fully debt-funded (debt 1000, equity 0),
interest-free, two-year straight-line amortization, one-year hold, unit
EBITDA margin, zero entry EBITDA and zero operating ratios. -/
def inpEx1 : Inputs :=
  { purchase_price := 1000, transaction_fee_pct := 0, entry_ebitda := 0,
    holding_period := 1, debt_ratio_pct := 100, interest_rate := 0,
    amort_years := 2, tax_rate := 1 / 4, ebitda_margin := 1,
    capex_pct := 0, depreciation_pct := 0, wc_pct := 0 }

/-- C6: for a run of the projector with debt ≥ 0 and amortizationYears ≥ 1,
the recorded `debt_remaining` values are non-increasing across years and
every recorded value is nonnegative. -/
theorem debt_schedule_monotone (inp : Inputs) (g : ℚ) (tbl : List YearRecord) (drF : ℚ)
    (ht : lboTable inp g = some (tbl, drF))
    (hd : 0 ≤ lboDebt inp) (_hA : 1 ≤ inp.amort_years) :
    List.Chain' (fun a b => b ≤ a) (tbl.map (fun r => r.debt_remaining)) ∧
      ∀ r ∈ tbl, 0 ≤ r.debt_remaining := by
  by_cases hh : 1 ≤ inp.holding_period
  · have hm := lboTable_margin_ne_zero inp g tbl drF ht hh
    rw [lboTable_closed inp g hm] at ht
    simp only [Option.some.injEq, Prod.mk.injEq] at ht
    obtain ⟨h1, _⟩ := ht
    subst h1
    constructor
    · rw [List.map_map, List.chain'_map]
      cases hcase : inp.holding_period with
      | zero => simp
      | succ m =>
        rw [List.chain'_range_succ]
        intro k hk
        show debtRemaining (lboDebt inp) inp.amort_years (k + 1 + 1)
          ≤ debtRemaining (lboDebt inp) inp.amort_years (k + 1)
        exact debtRemaining_step_le (lboDebt inp) inp.amort_years hd (k + 1)
    · intro r hr
      obtain ⟨k, _, rfl⟩ := List.mem_map.mp hr
      exact debtRemaining_nonneg (lboDebt inp) inp.amort_years hd (k + 1)
  · have hz : inp.holding_period = 0 := by omega
    rw [lboTable, hz] at ht
    simp only [lboLoop, Option.some.injEq, Prod.mk.injEq] at ht
    obtain ⟨h1, _⟩ := ht
    subst h1
    simp

/-- Concrete instantiation of `debt_schedule_monotone` on `inpEx1`. -/
theorem debt_schedule_monotone_witness :
    lboTable inpEx1 0 = some ([⟨1, 0, 0, 0, 0, 0, 0, 0, 500⟩], 500) ∧
    0 ≤ lboDebt inpEx1 ∧ 1 ≤ inpEx1.amort_years ∧
    (List.Chain' (fun a b => b ≤ a)
        (([(⟨1, 0, 0, 0, 0, 0, 0, 0, 500⟩ : YearRecord)]).map (fun r => r.debt_remaining)) ∧
      ∀ r ∈ [(⟨1, 0, 0, 0, 0, 0, 0, 0, 500⟩ : YearRecord)], 0 ≤ r.debt_remaining) := by
  have h1 : lboTable inpEx1 0 = some ([⟨1, 0, 0, 0, 0, 0, 0, 0, 500⟩], 500) := by
    norm_num [lboTable, lboLoop, lboYearStep, inpEx1, lboDebt, debtRemaining]
  exact ⟨h1, by norm_num [lboDebt, inpEx1], by norm_num [inpEx1],
    debt_schedule_monotone inpEx1 0 _ _ h1 (by norm_num [lboDebt, inpEx1])
      (by norm_num [inpEx1])⟩

/-- C7: every row records `tax = max(taxableIncome, 0) * taxRate` with
`taxableIncome = ebitda - interest - depreciation`, so with a
nonnegative tax rate every recorded tax is nonnegative (loss years yield
zero tax, never a credit). -/
theorem tax_rule_nonneg (inp : Inputs) (g : ℚ) (tbl : List YearRecord) (drF : ℚ)
    (ht : lboTable inp g = some (tbl, drF)) (htax : 0 ≤ inp.tax_rate) :
    ∀ r ∈ tbl,
      r.tax = max (r.ebitda - r.interest - r.depreciation) 0 * inp.tax_rate ∧
      0 ≤ r.tax := by
  by_cases hh : 1 ≤ inp.holding_period
  · have hm := lboTable_margin_ne_zero inp g tbl drF ht hh
    rw [lboTable_closed inp g hm] at ht
    simp only [Option.some.injEq, Prod.mk.injEq] at ht
    obtain ⟨h1, _⟩ := ht
    subst h1
    intro r hr
    obtain ⟨k, _, rfl⟩ := List.mem_map.mp hr
    constructor
    · rfl
    · exact mul_nonneg (le_max_right _ _) htax
  · have hz : inp.holding_period = 0 := by omega
    rw [lboTable, hz] at ht
    simp only [lboLoop, Option.some.injEq, Prod.mk.injEq] at ht
    obtain ⟨h1, _⟩ := ht
    subst h1
    intro r hr
    exact absurd hr (List.not_mem_nil r)

/-- Concrete instantiation of `tax_rule_nonneg` on `inpEx1`. -/
theorem tax_rule_nonneg_witness :
    lboTable inpEx1 0 = some ([⟨1, 0, 0, 0, 0, 0, 0, 0, 500⟩], 500) ∧
    0 ≤ inpEx1.tax_rate ∧
    ∀ r ∈ [(⟨1, 0, 0, 0, 0, 0, 0, 0, 500⟩ : YearRecord)],
      r.tax = max (r.ebitda - r.interest - r.depreciation) 0 * inpEx1.tax_rate ∧
      0 ≤ r.tax := by
  have h1 : lboTable inpEx1 0 = some ([⟨1, 0, 0, 0, 0, 0, 0, 0, 500⟩], 500) := by
    norm_num [lboTable, lboLoop, lboYearStep, inpEx1, lboDebt, debtRemaining]
  exact ⟨h1, by norm_num [inpEx1], tax_rule_nonneg inpEx1 0 _ _ h1 (by norm_num [inpEx1])⟩

/-- Like `inpEx1` but with the debt amortized inside the holding period
(one amortization year, one holding year). -/
def inpEx2 : Inputs :=
  { purchase_price := 1000, transaction_fee_pct := 0, entry_ebitda := 0,
    holding_period := 1, debt_ratio_pct := 100, interest_rate := 0,
    amort_years := 1, tax_rate := 1 / 4, ebitda_margin := 1,
    capex_pct := 0, depreciation_pct := 0, wc_pct := 0 }

/-- C4 as stated is false on the code: on `inpEx1` the debt is 1000 > 0,
amortizationYears = 2 ≥ 1 and holdingPeriodYears = 1 ≥ 1, yet the
YearRecord for year min(2, 1) = 1 carries debtRemaining 500, not 0
(straight-line amortization only repays 1/2 of the principal by then). -/
theorem debt_zero_at_min_counterexample :
    0 < lboDebt inpEx1 ∧ 1 ≤ inpEx1.amort_years ∧ 1 ≤ inpEx1.holding_period ∧
    (lboTable inpEx1 0).map
        (fun q => ((q.1.getD (min inpEx1.amort_years inpEx1.holding_period - 1) default).year,
          (q.1.getD (min inpEx1.amort_years inpEx1.holding_period - 1) default).debt_remaining))
      = some (min inpEx1.amort_years inpEx1.holding_period, 500) ∧ (500 : ℚ) ≠ 0 := by
  refine ⟨by norm_num [lboDebt, inpEx1], by norm_num [inpEx1], by norm_num [inpEx1], ?_, by norm_num⟩
  have h1 : lboTable inpEx1 0 = some ([⟨1, 0, 0, 0, 0, 0, 0, 0, 500⟩], 500) := by
    norm_num [lboTable, lboLoop, lboYearStep, inpEx1, lboDebt, debtRemaining]
  rw [h1]
  norm_num [inpEx1]

/-- C4 (amended): with debt > 0, amortizationYears ≥ 1 and — the amendment —
amortizationYears ≤ holdingPeriodYears, the YearRecord for year
min(amortizationYears, holdingPeriodYears) = amortizationYears has
debtRemaining = 0.  (Without the amendment the debt is only reduced to
the fraction of principal amortized by the final year, see the
counterexample.) -/
theorem debt_zero_at_min_amended (inp : Inputs) (g : ℚ) (tbl : List YearRecord) (drF : ℚ)
    (ht : lboTable inp g = some (tbl, drF)) (hd : 0 < lboDebt inp)
    (hA : 1 ≤ inp.amort_years) (hAh : inp.amort_years ≤ inp.holding_period) :
    (tbl.getD (min inp.amort_years inp.holding_period - 1) default).year
        = min inp.amort_years inp.holding_period ∧
    (tbl.getD (min inp.amort_years inp.holding_period - 1) default).debt_remaining = 0 := by
  have hh : 1 ≤ inp.holding_period := le_trans hA hAh
  have hm := lboTable_margin_ne_zero inp g tbl drF ht hh
  rw [lboTable_closed inp g hm] at ht
  simp only [Option.some.injEq, Prod.mk.injEq] at ht
  obtain ⟨h1, _⟩ := ht
  subst h1
  have hmin : min inp.amort_years inp.holding_period = inp.amort_years := min_eq_left hAh
  rw [hmin]
  have hidx : inp.amort_years - 1 < inp.holding_period := by omega
  have hidx2 : inp.amort_years - 1 < (List.range inp.holding_period).length := by
    simpa using hidx
  rw [List.getD_eq_getElem?_getD, List.getElem?_map, List.getElem?_range hidx]
  have hyear : inp.amort_years - 1 + 1 = inp.amort_years := by omega
  constructor
  · show (specRecord inp g (lboDebt inp) (inp.amort_years - 1 + 1)).year = inp.amort_years
    rw [hyear]
    rfl
  · show (specRecord inp g (lboDebt inp) (inp.amort_years - 1 + 1)).debt_remaining = 0
    rw [hyear]
    show debtRemaining (lboDebt inp) inp.amort_years inp.amort_years = 0
    exact debtRemaining_at_amort_end (lboDebt inp) inp.amort_years (le_of_lt hd) hA

/-- Concrete instantiation of `debt_zero_at_min_amended` on `inpEx2`. -/
theorem debt_zero_at_min_amended_witness :
    lboTable inpEx2 0 = some ([⟨1, 0, 0, 0, 0, 0, 0, 0, 0⟩], 0) ∧
    0 < lboDebt inpEx2 ∧ 1 ≤ inpEx2.amort_years ∧
    inpEx2.amort_years ≤ inpEx2.holding_period ∧
    ((([(⟨1, 0, 0, 0, 0, 0, 0, 0, 0⟩ : YearRecord)]).getD
        (min inpEx2.amort_years inpEx2.holding_period - 1) default).year
      = min inpEx2.amort_years inpEx2.holding_period ∧
    (([(⟨1, 0, 0, 0, 0, 0, 0, 0, 0⟩ : YearRecord)]).getD
        (min inpEx2.amort_years inpEx2.holding_period - 1) default).debt_remaining = 0) := by
  have h1 : lboTable inpEx2 0 = some ([⟨1, 0, 0, 0, 0, 0, 0, 0, 0⟩], 0) := by
    norm_num [lboTable, lboLoop, lboYearStep, inpEx2, lboDebt, debtRemaining]
  exact ⟨h1, by norm_num [lboDebt, inpEx2], by norm_num [inpEx2], by norm_num [inpEx2],
    debt_zero_at_min_amended inpEx2 0 _ _ h1 (by norm_num [lboDebt, inpEx2])
      (by norm_num [inpEx2]) (by norm_num [inpEx2])⟩

/-- Like `inpEx1` but with a zero EBITDA margin. -/
def inpEx3 : Inputs :=
  { purchase_price := 1000, transaction_fee_pct := 0, entry_ebitda := 100,
    holding_period := 1, debt_ratio_pct := 100, interest_rate := 0,
    amort_years := 2, tax_rate := 1 / 4, ebitda_margin := 0,
    capex_pct := 0, depreciation_pct := 0, wc_pct := 0 }

/-- C8: with a zero EBITDA margin and at least one projection year, the
projector fails at the year-1 guarded division `revenue = ebitda /
ebitda_margin` and returns no result (no recovery or default value). -/
theorem run_lbo_zero_margin_fails (inp : Inputs) (g x : ℚ)
    (hm : inp.ebitda_margin = 0) (hh : 1 ≤ inp.holding_period) :
    run_lbo inp g x = none := by
  rw [run_lbo, lboTable_zero_margin inp g hm hh]

/-- Concrete instantiation of `run_lbo_zero_margin_fails` on `inpEx3`. -/
theorem run_lbo_zero_margin_fails_witness :
    inpEx3.ebitda_margin = 0 ∧ 1 ≤ inpEx3.holding_period ∧
      run_lbo inpEx3 0 10 = none :=
  ⟨by norm_num [inpEx3], by norm_num [inpEx3],
    run_lbo_zero_margin_fails inpEx3 0 10 (by norm_num [inpEx3]) (by norm_num [inpEx3])⟩

/-- The output loop over the scenario mapping: one `run_lbo` call per
scenario (growth rate, exit multiple) pair, in input order. -/
def runAll (inp : Inputs) (scenarios : List (ℚ × ℚ)) : List (Option LBOResult) :=
  scenarios.map (fun s => run_lbo inp s.1 s.2)

/-- C5: the derived capital structure satisfies
`debt + equity = purchasePrice * (1 + transactionFeeRate)`, and fee, debt
and equity are recomputed from the capital inputs inside each scenario
call: the result of any scenario in a scenario list depends only on that
scenario's own parameters, not on its neighbours. -/
theorem debt_equity_invariant (inp : Inputs) :
    lboDebt inp + lboEquity inp
        = inp.purchase_price * (1 + inp.transaction_fee_pct) ∧
    ∀ (pre post : List (ℚ × ℚ)) (s : ℚ × ℚ),
      (runAll inp (pre ++ s :: post)).getD pre.length none = run_lbo inp s.1 s.2 := by
  constructor
  · rw [lboEquity, lboDebt]
    ring
  · intro pre post s
    rw [runAll, List.map_append, List.map_cons, List.getD_eq_getElem?_getD,
      List.getElem?_append_right (by simp)]
    simp

/-- `total_equity = purchase_price * (1 - debt_ratio / 100) + purchase_price
* transaction_fee_pct`: the initial outlay as the sensitivity grid
computes it. -/
def gridTotalEquity (inp : Inputs) : ℚ :=
  inp.purchase_price * (1 - inp.debt_ratio_pct / 100)
    + inp.purchase_price * inp.transaction_fee_pct

/-- C9: the sensitivity grid's initial equity outlay
`p*(1-d) + p*f` differs from the projector's equity `(p + p*f)*(1-d)` by
exactly `p*f*d` (with `d` the debt ratio as a fraction), so the two
computations agree exactly when `p*f*d = 0`. -/
theorem equity_outlay_divergence (inp : Inputs) :
    lboEquity inp = (inp.purchase_price + inp.purchase_price * inp.transaction_fee_pct)
        * (1 - inp.debt_ratio_pct / 100) ∧
    gridTotalEquity inp - lboEquity inp
        = inp.purchase_price * inp.transaction_fee_pct * (inp.debt_ratio_pct / 100) ∧
    (gridTotalEquity inp = lboEquity inp ↔
      inp.purchase_price * inp.transaction_fee_pct * (inp.debt_ratio_pct / 100) = 0) := by
  have hdiff : gridTotalEquity inp - lboEquity inp
      = inp.purchase_price * inp.transaction_fee_pct * (inp.debt_ratio_pct / 100) := by
    rw [gridTotalEquity, lboEquity, lboDebt]
    ring
  refine ⟨?_, hdiff, ?_⟩
  · rw [lboEquity, lboDebt]
    ring
  · rw [← hdiff]
    exact sub_eq_zero.symm

theorem addToLast_append_singleton (p : ℚ) :
    ∀ (l : List ℚ) (a : ℚ), addToLast p (l ++ [a]) = l ++ [a + p] := by
  intro l
  induction l with
  | nil => intro a; rfl
  | cons x l ih =>
    intro a
    cases l with
    | nil => rfl
    | cons y l2 =>
      show x :: addToLast p ((y :: l2) ++ [a]) = x :: ((y :: l2) ++ [a + p])
      rw [ih a]

/-- Exit proceeds of a scenario run:
`exitEbitda * exitMultiple - debtRemaining(final)` with
`exitEbitda = entryEbitda * (1+growthRate)^holdingPeriodYears`. -/
def lboProceeds (inp : Inputs) (g x : ℚ) : ℚ :=
  inp.entry_ebitda * (1 + g) ^ inp.holding_period * x
    - debtRemaining (lboDebt inp) inp.amort_years inp.holding_period

/-- The sequence handed to the IRR solver, in the shape the spec states
it: `[-equity, fcf_1, ..., fcf_(h-1), fcf_h + proceeds]` — proceeds
merged into the last year's free cash flow, not a separate entry. -/
def lboCashFlowSeq (inp : Inputs) (g x : ℚ) : List ℚ :=
  -lboEquity inp ::
    ((List.range (inp.holding_period - 1)).map
        (fun k => (specRecord inp g (lboDebt inp) (k + 1)).fcf)
      ++ [(specRecord inp g (lboDebt inp) inp.holding_period).fcf + lboProceeds inp g x])

/-- C1: the terminal step computes
`exitEbitda = entryEbitda*(1+growthRate)^h`, `exitValue = exitEbitda *
exitMultiple`, `proceeds = exitValue - debtRemaining(final)`; the
proceeds are added into the LAST cash-flow entry, so the solver receives
`[-equity, fcf_1, ..., fcf_h + proceeds]` of length h+1, and
`moic = proceeds / equity`. -/
theorem run_lbo_terminal (inp : Inputs) (g x : ℚ)
    (hh : 1 ≤ inp.holding_period) (hm : inp.ebitda_margin ≠ 0) :
    (lboCashFlowSeq inp g x).length = inp.holding_period + 1 ∧
    run_lbo inp g x =
      (match calculate_irr (lboCashFlowSeq inp g x) with
        | none => none
        | some r =>
          if lboEquity inp = 0 then none
          else some ⟨r * 100, lboProceeds inp g x / lboEquity inp,
            (List.range inp.holding_period).map
              (fun k => specRecord inp g (lboDebt inp) (k + 1))⟩) := by
  obtain ⟨m, hm2⟩ : ∃ m, inp.holding_period = m + 1 := ⟨inp.holding_period - 1, by omega⟩
  have hseq : ∀ p : ℚ,
      addToLast p (-lboEquity inp ::
          ((List.range inp.holding_period).map
            (fun k => specRecord inp g (lboDebt inp) (k + 1))).map (fun r => r.fcf))
        = -lboEquity inp ::
            ((List.range (inp.holding_period - 1)).map
                (fun k => (specRecord inp g (lboDebt inp) (k + 1)).fcf)
              ++ [(specRecord inp g (lboDebt inp) inp.holding_period).fcf + p]) := by
    intro p
    rw [List.map_map, hm2]
    simp only [Nat.add_sub_cancel]
    rw [List.range_succ, List.map_append, List.map_singleton, ← List.cons_append,
      addToLast_append_singleton, ← List.cons_append]
    simp [Function.comp]
  constructor
  · rw [lboCashFlowSeq]
    simp only [List.length_cons, List.length_append, List.length_map, List.length_range,
      List.length_nil]
    omega
  · rw [run_lbo, lboTable_closed inp g hm]
    show (match calculate_irr (addToLast
        (inp.entry_ebitda * (1 + g) ^ inp.holding_period * x
          - debtRemaining (lboDebt inp) inp.amort_years inp.holding_period)
        (-lboEquity inp ::
          ((List.range inp.holding_period).map
            (fun k => specRecord inp g (lboDebt inp) (k + 1))).map (fun r => r.fcf))) with
      | none => none
      | some r =>
        if lboEquity inp = 0 then none
        else some (LBOResult.mk (r * 100)
          ((inp.entry_ebitda * (1 + g) ^ inp.holding_period * x
            - debtRemaining (lboDebt inp) inp.amort_years inp.holding_period) / lboEquity inp)
          ((List.range inp.holding_period).map
            (fun k => specRecord inp g (lboDebt inp) (k + 1))))) = _
    rw [hseq]
    rfl

/-- Concrete instantiation of `run_lbo_terminal` on `inpEx1`. -/
theorem run_lbo_terminal_witness :
    1 ≤ inpEx1.holding_period ∧ inpEx1.ebitda_margin ≠ 0 ∧
    ((lboCashFlowSeq inpEx1 0 10).length = inpEx1.holding_period + 1 ∧
    run_lbo inpEx1 0 10 =
      (match calculate_irr (lboCashFlowSeq inpEx1 0 10) with
        | none => none
        | some r =>
          if lboEquity inpEx1 = 0 then none
          else some ⟨r * 100, lboProceeds inpEx1 0 10 / lboEquity inpEx1,
            (List.range inpEx1.holding_period).map
              (fun k => specRecord inpEx1 0 (lboDebt inpEx1) (k + 1))⟩)) :=
  ⟨by norm_num [inpEx1], by norm_num [inpEx1],
    run_lbo_terminal inpEx1 0 10 (by norm_num [inpEx1]) (by norm_num [inpEx1])⟩

/-- One sensitivity-grid cell's simplified cash-flow sequence:
`[-total_equity]`, then `entry_ebitda * (1+base_growth)^y` for
`y in range(h)`, then `cash_flows[-1] += exit_ebitda * x` with
`exit_ebitda = entry_ebitda * (1+base_growth)^h`.  No interest, tax,
capex, depreciation or debt paydown appears. -/
def gridCashFlows (inp : Inputs) (base_growth : ℚ) (h : ℕ) (x : ℚ) : List ℚ :=
  addToLast (inp.entry_ebitda * (1 + base_growth) ^ h * x)
    (-gridTotalEquity inp ::
      (List.range h).map (fun y => inp.entry_ebitda * (1 + base_growth) ^ y))

/-- One grid cell: `calculate_irr(cash_flows) * 100`. -/
def irrGridCell (inp : Inputs) (base_growth : ℚ) (h : ℕ) (x : ℚ) : Option ℚ :=
  (calculate_irr (gridCashFlows inp base_growth h x)).map (fun v => v * 100)

/-- The sensitivity sweep: rows are holding periods `3..10`
(`hold_range = np.arange(3, 11)`), columns exit multiples `8..15`
(`exit_range = np.arange(8, 16)`), at the base-case growth rate. -/
def irr_grid (inp : Inputs) (base_growth : ℚ) : List (List (Option ℚ)) :=
  (List.range 8).map (fun (hi : ℕ) =>
    (List.range 8).map (fun (xi : ℕ) => irrGridCell inp base_growth (hi + 3) ((xi : ℚ) + 8)))

/-- C3: each sensitivity-grid cell is the IRR of a sequence of length
h+1 whose entry 0 is `-(p*(1-d) + p*f)`, whose entries `1..h` are
`entry_ebitda*(1+g)^y` for `y = 0..h-1` (no interest, tax, capex,
depreciation or debt paydown), and whose last entry additionally
receives `entry_ebitda*(1+g)^h * x`. -/
theorem grid_cell_shape (inp : Inputs) (bg x : ℚ) (h : ℕ) (hh : 1 ≤ h) :
    gridCashFlows inp bg h x =
      -(inp.purchase_price * (1 - inp.debt_ratio_pct / 100)
          + inp.purchase_price * inp.transaction_fee_pct) ::
        ((List.range (h - 1)).map (fun y => inp.entry_ebitda * (1 + bg) ^ y)
          ++ [inp.entry_ebitda * (1 + bg) ^ (h - 1)
            + inp.entry_ebitda * (1 + bg) ^ h * x]) ∧
    (gridCashFlows inp bg h x).length = h + 1 ∧
    irrGridCell inp bg h x
      = (calculate_irr (gridCashFlows inp bg h x)).map (fun v => v * 100) ∧
    ∀ hi xi : ℕ, hi < 8 → xi < 8 →
      ((irr_grid inp bg).getD hi []).getD xi none
        = irrGridCell inp bg (hi + 3) ((xi : ℚ) + 8) := by
  obtain ⟨m, hm2⟩ : ∃ m, h = m + 1 := ⟨h - 1, by omega⟩
  have h1 : gridCashFlows inp bg h x =
      -(inp.purchase_price * (1 - inp.debt_ratio_pct / 100)
          + inp.purchase_price * inp.transaction_fee_pct) ::
        ((List.range (h - 1)).map (fun y => inp.entry_ebitda * (1 + bg) ^ y)
          ++ [inp.entry_ebitda * (1 + bg) ^ (h - 1)
            + inp.entry_ebitda * (1 + bg) ^ h * x]) := by
    rw [gridCashFlows, gridTotalEquity, hm2]
    simp only [Nat.add_sub_cancel]
    rw [List.range_succ, List.map_append, List.map_singleton, ← List.cons_append,
      addToLast_append_singleton, ← List.cons_append]
  refine ⟨h1, ?_, rfl, ?_⟩
  · rw [h1]
    simp only [List.length_cons, List.length_append, List.length_map, List.length_range,
      List.length_nil]
    omega
  · intro hi xi hhi hxi
    simp [irr_grid, List.getD_eq_getElem?_getD, List.getElem?_map, List.getElem?_range,
      hhi, hxi]

/-- Concrete instantiation of `grid_cell_shape` at `inpEx1`, zero
growth, holding period 3, exit multiple 8. -/
theorem grid_cell_shape_witness :
    (1 : ℕ) ≤ 3 ∧
    (gridCashFlows inpEx1 0 3 8 =
      -(inpEx1.purchase_price * (1 - inpEx1.debt_ratio_pct / 100)
          + inpEx1.purchase_price * inpEx1.transaction_fee_pct) ::
        ((List.range (3 - 1)).map (fun y => inpEx1.entry_ebitda * (1 + 0) ^ y)
          ++ [inpEx1.entry_ebitda * (1 + 0) ^ (3 - 1)
            + inpEx1.entry_ebitda * (1 + 0) ^ 3 * 8]) ∧
    (gridCashFlows inpEx1 0 3 8).length = 3 + 1 ∧
    irrGridCell inpEx1 0 3 8
      = (calculate_irr (gridCashFlows inpEx1 0 3 8)).map (fun v => v * 100) ∧
    ∀ hi xi : ℕ, hi < 8 → xi < 8 →
      ((irr_grid inpEx1 0).getD hi []).getD xi none
        = irrGridCell inpEx1 0 (hi + 3) ((xi : ℚ) + 8)) :=
  ⟨by norm_num, grid_cell_shape inpEx1 0 8 3 (by norm_num)⟩
